import Mathlib

/-!
Verification of the cryoem-monitor telemetry pipeline
(`src/cryoem_monitor/client/logger.py`, `src/cryoem_monitor/server/prometheus.py`)
against its natural-language specification.

The Python code is shallowly embedded: pure data flow becomes Lean functions,
Python exceptions become `Except PyError` results, and Python `dict`s become
association lists with insertion-order/overwrite-in-place semantics
(`dinsert` / `dlookup` below mirror `d[k] = v` and `d[k]`).
-/

namespace CryoemMonitor

/-- Python exception kinds relevant to the embedded code paths. -/
inductive PyError where
  | valueError
  | keyError
  | indexError
  | unboundLocalError
  deriving DecidableEq, Repr

/-! ### Python `dict` as an association list

A Python `dict` preserves insertion order; re-assigning an existing key
overwrites the value in place without moving the key. `dinsert` models
`d[k] = v`, `dlookup` models `d[k]` / `k in d`, `dkeys` models `d.keys()`
(and hence `dict` iteration order). -/

def dinsert {α β : Type} [DecidableEq α] : List (α × β) → α → β → List (α × β)
  | [], k, v => [(k, v)]
  | (k', v') :: t, k, v =>
    if k' = k then (k', v) :: t else (k', v') :: dinsert t k v

def dlookup {α β : Type} [DecidableEq α] (l : List (α × β)) (k : α) : Option β :=
  (l.find? (fun p => p.1 = k)).map (·.2)

def dkeys {α β : Type} (l : List (α × β)) : List α := l.map (·.1)

theorem dlookup_nil {α β : Type} [DecidableEq α] (k : α) :
    dlookup ([] : List (α × β)) k = none := rfl

theorem dlookup_cons {α β : Type} [DecidableEq α] (k' : α) (v' : β) (t : List (α × β)) (k : α) :
    dlookup ((k', v') :: t) k = if k' = k then some v' else dlookup t k := by
  simp only [dlookup, List.find?]
  by_cases h : k' = k <;> simp [h]

theorem dkeys_dinsert {α β : Type} [DecidableEq α] (l : List (α × β)) (k : α) (v : β) :
    dkeys (dinsert l k v) = if k ∈ dkeys l then dkeys l else dkeys l ++ [k] := by
  induction l with
  | nil => simp [dinsert, dkeys]
  | cons p t ih =>
    obtain ⟨k', v'⟩ := p
    by_cases h : k' = k
    · subst h
      simp [dinsert, dkeys]
    · simp only [dinsert, if_neg h, dkeys, List.map_cons, List.mem_cons]
      rw [show dkeys (dinsert t k v) = List.map Prod.fst (dinsert t k v) from rfl] at ih
      simp only [dkeys] at ih
      rw [ih]
      have : ¬ k = k' := fun hk => h hk.symm
      by_cases hm : k ∈ List.map Prod.fst t <;> simp [hm, this]

theorem dlookup_dinsert_self {α β : Type} [DecidableEq α] (l : List (α × β)) (k : α) (v : β) :
    dlookup (dinsert l k v) k = some v := by
  induction l with
  | nil => simp [dinsert, dlookup]
  | cons p t ih =>
    obtain ⟨k', v'⟩ := p
    by_cases h : k' = k
    · subst h; simp [dinsert, dlookup_cons]
    · simp [dinsert, h, dlookup_cons, ih]

theorem dlookup_dinsert_ne {α β : Type} [DecidableEq α] (l : List (α × β)) (k k' : α) (v : β)
    (h : k ≠ k') : dlookup (dinsert l k v) k' = dlookup l k' := by
  induction l with
  | nil => simp [dinsert, dlookup_cons, dlookup_nil, h]
  | cons p t ih =>
    obtain ⟨k₀, v₀⟩ := p
    by_cases h₀ : k₀ = k
    · subst h₀; simp [dinsert, dlookup_cons, h]
    · simp [dinsert, h₀, dlookup_cons, ih]

theorem dlookup_isSome_iff_mem_dkeys {α β : Type} [DecidableEq α]
    (l : List (α × β)) (k : α) : (dlookup l k).isSome ↔ k ∈ dkeys l := by
  induction l with
  | nil => simp [dlookup_nil, dkeys]
  | cons p t ih =>
    obtain ⟨k', v'⟩ := p
    by_cases h : k' = k
    · subst h; simp [dlookup_cons, dkeys]
    · simp [dlookup_cons, h, dkeys, ih, Ne.symm h]

/-! ### Python string primitives used by the code

`pyTake` models slicing `s[:n]`; `pyReplace` models `str.replace(old, new)`
(all non-overlapping occurrences, scanned left to right). The code only ever
calls `replace` with a non-empty pattern. -/

def pyTake (s : String) (n : Nat) : String := ⟨s.data.take n⟩

def pyReplaceAux (pat rep : List Char) : Nat → List Char → List Char
  | _, [] => []
  | 0, l => l
  | fuel + 1, c :: rest =>
    if pat ≠ [] ∧ pat.isPrefixOf (c :: rest) then
      rep ++ pyReplaceAux pat rep fuel (rest.drop (pat.length - 1))
    else
      c :: pyReplaceAux pat rep fuel rest

/-- The fuel `s.length` suffices: each step consumes at least one character. -/
def pyReplace (s pat rep : String) : String :=
  ⟨pyReplaceAux pat.data rep.data s.data.length s.data⟩

/-! ### Timestamps

`parse_datetime` (logger.py:166-181) tries six `strftime` formats in order and
returns the first `datetime.strptime` success. We embed CPython's `strptime`
matcher for exactly those six format strings. Each directive is matched the
way CPython's `_strptime` regex fragment does (`%Y` = exactly four digits,
`%m` = `1[0-2]|0[1-9]|[1-9]`, etc.; literals match case-insensitively because
the format regex is compiled with IGNORECASE, except the `Z` alternative of
`%z` which is case-sensitive). A directive combination that matches the regex
but yields an invalid calendar date (e.g. Feb 31, or leap seconds 60/61)
makes `datetime()` raise `ValueError`, which `parse_datetime` treats exactly
like a format mismatch (it tries the next format), so we fold that validation
into the per-format matcher. -/

/-- A parsed wall-clock datetime. `off` is the UTC offset in seconds parsed by
`%z` (`none` for formats without `%z`); the code always discards it via
`.replace(tzinfo=timezone.utc)`, reinterpreting the wall-clock fields as UTC. -/
structure DT where
  year : Nat
  month : Nat
  day : Nat
  hour : Nat
  minute : Nat
  second : Nat
  usec : Nat
  off : Option Int
  deriving DecidableEq, Repr

def digitVal (c : Char) : Nat := c.toNat - 48

def isDigitChar (c : Char) : Bool := '0' ≤ c ∧ c ≤ '9'

/-- Match exactly `n` digits (CPython `%Y` uses four). -/
def pDigits : Nat → List Char → Option (Nat × List Char)
  | 0, l => some (0, l)
  | _ + 1, [] => none
  | n + 1, c :: rest =>
    if isDigitChar c then
      (pDigits n rest).map (fun p => (digitVal c * 10 ^ n + p.1, p.2))
    else none

/-- Match a two-digit-or-one-digit numeric directive the way the CPython
regex alternation does: try the two-character alternatives first, then the
one-character ones. -/
def pAlt2 (two : Char → Char → Option Nat) (one : Char → Option Nat) :
    List Char → Option (Nat × List Char)
  | c1 :: c2 :: rest =>
    match two c1 c2 with
    | some n => some (n, rest)
    | none =>
      match one c1 with
      | some n => some (n, c2 :: rest)
      | none => none
  | [c1] =>
    match one c1 with
    | some n => some (n, [])
    | none => none
  | [] => none

/-- `%m`: `1[0-2]|0[1-9]|[1-9]`. -/
def pMonth : List Char → Option (Nat × List Char) :=
  pAlt2
    (fun a b =>
      if a = '1' ∧ '0' ≤ b ∧ b ≤ '2' then some (10 + digitVal b)
      else if a = '0' ∧ '1' ≤ b ∧ b ≤ '9' then some (digitVal b)
      else none)
    (fun a => if '1' ≤ a ∧ a ≤ '9' then some (digitVal a) else none)

/-- `%d`: `3[01]|[1-2]\d|0[1-9]|[1-9]`. -/
def pDay : List Char → Option (Nat × List Char) :=
  pAlt2
    (fun a b =>
      if a = '3' ∧ '0' ≤ b ∧ b ≤ '1' then some (30 + digitVal b)
      else if ('1' ≤ a ∧ a ≤ '2') ∧ isDigitChar b then some (digitVal a * 10 + digitVal b)
      else if a = '0' ∧ '1' ≤ b ∧ b ≤ '9' then some (digitVal b)
      else none)
    (fun a => if '1' ≤ a ∧ a ≤ '9' then some (digitVal a) else none)

/-- `%H`: `2[0-3]|[0-1]\d|\d`. -/
def pHour : List Char → Option (Nat × List Char) :=
  pAlt2
    (fun a b =>
      if a = '2' ∧ '0' ≤ b ∧ b ≤ '3' then some (20 + digitVal b)
      else if ('0' ≤ a ∧ a ≤ '1') ∧ isDigitChar b then some (digitVal a * 10 + digitVal b)
      else none)
    (fun a => if isDigitChar a then some (digitVal a) else none)

/-- `%M` (and `%S`, excluding the leap-second alternatives `6[0-1]`, which
`datetime()` would reject with `ValueError` anyway): `[0-5]\d|\d`. -/
def pMinSec : List Char → Option (Nat × List Char) :=
  pAlt2
    (fun a b =>
      if ('0' ≤ a ∧ a ≤ '5') ∧ isDigitChar b then some (digitVal a * 10 + digitVal b)
      else none)
    (fun a => if isDigitChar a then some (digitVal a) else none)

/-- `%f`: one to six digits, greedy; the value is in microseconds, the
missing low-order digits filled with zeros (CPython pads with `"0"`). -/
def pFracAux : Nat → List Char → (List Nat × List Char)
  | 0, l => ([], l)
  | _ + 1, [] => ([], [])
  | n + 1, c :: rest =>
    if isDigitChar c then
      let (ds, l) := pFracAux n rest
      (digitVal c :: ds, l)
    else ([], c :: rest)

def pFrac (l : List Char) : Option (Nat × List Char) :=
  let (ds, rest) := pFracAux 6 l
  if ds = [] then none
  else some (ds.foldl (fun a d => a * 10 + d) 0 * 10 ^ (6 - ds.length), rest)

/-- Literal characters in a format match case-insensitively (the CPython
format regex is compiled with `re.IGNORECASE`). -/
def pLit (c : Char) : List Char → Option (List Char)
  | x :: rest => if x.toLower = c.toLower then some rest else none
  | [] => none

/-- `%z`: `[+-]\d\d:?\d\d(:?\d\d(\.\d{1,6})?)?|Z` (the `Z` alternative is
case-sensitive). Returns the offset in seconds; the embedded code never uses
the value, only whether the directive matched. -/
def pTzTail (sign : Int) (l : List Char) : Option (Int × List Char) := do
  let (hh, l) ← pDigits 2 l
  let l := match l with
           | ':' :: r => r
           | _ => l
  let (mm, l) ← pDigits 2 l
  let seconds : Option (Nat × List Char) := do
    let l2 := match l with
              | ':' :: r => r
              | _ => l
    let (ss, l2) ← pDigits 2 l2
    let frac : Option (Nat × List Char) := do
      match l2 with
      | '.' :: r => pFrac r
      | _ => none
    match frac with
    | some (_, l3) => pure (ss, l3)
    | none => pure (ss, l2)
  match seconds with
  | some (ss, l2) => pure (sign * ((hh * 3600 : Nat) + mm * 60 + ss), l2)
  | none => pure (sign * ((hh * 3600 : Nat) + mm * 60), l)

def pTz : List Char → Option (Int × List Char)
  | 'Z' :: rest => some (0, rest)
  | '+' :: rest => pTzTail 1 rest
  | '-' :: rest => pTzTail (-1) rest
  | _ => none

/-- Leap years, as in `calendar.isleap` / `datetime`. -/
def isLeap (y : Nat) : Bool := y % 4 = 0 ∧ (y % 100 ≠ 0 ∨ y % 400 = 0)

def daysInMonth (y m : Nat) : Nat :=
  if m = 2 then (if isLeap y then 29 else 28)
  else if m = 4 ∨ m = 6 ∨ m = 9 ∨ m = 11 then 30
  else 31

/-- Validation performed by the `datetime` constructor on regex-matched
fields: `MINYEAR = 1`, and the day must exist in the month. A violation
raises `ValueError`, which `parse_datetime`'s loop treats as a mismatch. -/
def mkDT (y mo d h mi s us : Nat) (off : Option Int) : Option DT :=
  if 1 ≤ y ∧ d ≤ daysInMonth y mo then some ⟨y, mo, d, h, mi, s, us, off⟩ else none

/-- The shared `%Y-%m-%dT%H:%M:%S` prefix of all six formats. -/
def pCommon (l : List Char) : Option (Nat × Nat × Nat × Nat × Nat × Nat × List Char) := do
  let (y, l) ← pDigits 4 l
  let l ← pLit '-' l
  let (mo, l) ← pMonth l
  let l ← pLit '-' l
  let (d, l) ← pDay l
  let l ← pLit 'T' l
  let (h, l) ← pHour l
  let l ← pLit ':' l
  let (mi, l) ← pMinSec l
  let l ← pLit ':' l
  let (s, l) ← pMinSec l
  pure (y, mo, d, h, mi, s, l)

/-- `"%Y-%m-%dT%H:%M:%S.%fZ"` (strptime requires the whole string to match). -/
def fmt1 (l : List Char) : Option DT := do
  let (y, mo, d, h, mi, s, l) ← pCommon l
  let l ← pLit '.' l
  let (us, l) ← pFrac l
  let l ← pLit 'Z' l
  if l = [] then mkDT y mo d h mi s us none else none

/-- `"%Y-%m-%dT%H:%M:%SZ"`. -/
def fmt2 (l : List Char) : Option DT := do
  let (y, mo, d, h, mi, s, l) ← pCommon l
  let l ← pLit 'Z' l
  if l = [] then mkDT y mo d h mi s 0 none else none

/-- `"%Y-%m-%dT%H:%M:%S.%fZZ"`. -/
def fmt3 (l : List Char) : Option DT := do
  let (y, mo, d, h, mi, s, l) ← pCommon l
  let l ← pLit '.' l
  let (us, l) ← pFrac l
  let l ← pLit 'Z' l
  let l ← pLit 'Z' l
  if l = [] then mkDT y mo d h mi s us none else none

/-- `"%Y-%m-%dT%H:%M:%S.%f%z"`. -/
def fmt4 (l : List Char) : Option DT := do
  let (y, mo, d, h, mi, s, l) ← pCommon l
  let l ← pLit '.' l
  let (us, l) ← pFrac l
  let (off, l) ← pTz l
  if l = [] then mkDT y mo d h mi s us (some off) else none

/-- `"%Y-%m-%dT%H:%M:%S%z"`. -/
def fmt5 (l : List Char) : Option DT := do
  let (y, mo, d, h, mi, s, l) ← pCommon l
  let (off, l) ← pTz l
  if l = [] then mkDT y mo d h mi s 0 (some off) else none

/-- `"%Y-%m-%dT%H:%M:%S.%f+0Z"` (the `+0Z` is a literal). -/
def fmt6 (l : List Char) : Option DT := do
  let (y, mo, d, h, mi, s, l) ← pCommon l
  let l ← pLit '.' l
  let (us, l) ← pFrac l
  let l ← pLit '+' l
  let l ← pLit '0' l
  let l ← pLit 'Z' l
  if l = [] then mkDT y mo d h mi s us none else none

/-- `parse_datetime` (logger.py:166-181): try the six known formats in order
and return the first that fits; `none` models the final
`raise ValueError(f"No time formats fit for ...")`. -/
def parse_datetime (s : String) : Option DT :=
  (fmt1 s.data).orElse fun _ =>
  (fmt2 s.data).orElse fun _ =>
  (fmt3 s.data).orElse fun _ =>
  (fmt4 s.data).orElse fun _ =>
  (fmt5 s.data).orElse fun _ =>
  fmt6 s.data

/-! Absolute wall-clock value in microseconds since 0001-01-01T00:00:00 of the
proleptic Gregorian calendar. Python's `datetime` comparison and
`timedelta` arithmetic (on datetimes sharing a `tzinfo`) coincide with
comparison and arithmetic on this value. -/

def daysBeforeYear (y : Nat) : Nat :=
  365 * (y - 1) + (y - 1) / 4 - (y - 1) / 100 + (y - 1) / 400

def daysBeforeMonth (y m : Nat) : Nat :=
  (if m > 1 then 31 else 0) + (if m > 2 then (if isLeap y then 29 else 28) else 0) +
  (if m > 3 then 31 else 0) + (if m > 4 then 30 else 0) + (if m > 5 then 31 else 0) +
  (if m > 6 then 30 else 0) + (if m > 7 then 31 else 0) + (if m > 8 then 31 else 0) +
  (if m > 9 then 30 else 0) + (if m > 10 then 31 else 0) + (if m > 11 then 30 else 0)

/-- Wall-clock instant of a parsed datetime, in microseconds. The embedded
code compares datetimes only after `.replace(tzinfo=timezone.utc)`, which
drops any parsed offset, so only the wall-clock fields enter. -/
def toAbs (t : DT) : Int :=
  ((((((daysBeforeYear t.year + daysBeforeMonth t.year t.month + (t.day - 1)) * 24
     + t.hour) * 60 + t.minute) * 60 + t.second) * 1000000 + t.usec : Nat) : Int)

/-! ### Schema model (logger.py:21-163)

The pydantic-xml classes become plain structures. `Union[float, int, str]`
sample values become `XValue`; `Union[int, float]` threshold values become
`ℚ` (the code never distinguishes int from float for thresholds). Optional
fields keep their `Option` type; the `default_factory=list` defaults mean a
missing XML element parses to an empty list, which we model as `some []`
where the code can observe the difference and as `none` where it cannot
(see `ValueData.limits`). -/

inductive XValue where
  | xFloat (q : ℚ)
  | xInt (n : Int)
  | xStr (s : String)
  deriving DecidableEq, Repr

structure EMLiteral where
  name : String
  value : Int
  deriving DecidableEq, Repr

structure EMEnumeration where
  name : String
  instrument : String
  literals : List EMLiteral
  deriving DecidableEq, Repr

structure Enumerations where
  enumerations : List EMEnumeration
  deriving DecidableEq, Repr

structure Parameter where
  parameterid : String
  eventid : String
  eventname : String
  name : String
  displayname : String
  datatype : String
  enumerationname : Option String
  storageunit : String
  displayunit : String
  displayscale : String
  formatstring : String
  servicecategory : String
  maxloginterval : String
  absolutemin : String
  absolutemax : String
  deriving DecidableEq, Repr

/-- `Component` self-references through `Optional[list["Component"]]`. -/
inductive Component where
  | mk (name displayname servicecategory : String)
       (components : Option (List Component))
       (parameter : Option (List Parameter))

def Component.name : Component → String
  | .mk n _ _ _ _ => n

def Component.displayname : Component → String
  | .mk _ d _ _ _ => d

def Component.servicecategory : Component → String
  | .mk _ _ s _ _ => s

def Component.components : Component → Option (List Component)
  | .mk _ _ _ c _ => c

def Component.parameter : Component → Option (List Parameter)
  | .mk _ _ _ _ p => p

structure Instrument where
  name : String
  displayname : String
  heartbeat : String
  servicelogbook : String
  component : List Component

structure Instruments where
  instrument : Instrument

structure ValuePar where
  datatype : String
  value : XValue
  deriving DecidableEq, Repr

structure ParameterValue where
  timestamp : String
  value : ValuePar
  deriving DecidableEq, Repr

structure ParameterValues where
  parameter_value : List ParameterValue
  deriving DecidableEq, Repr

structure ValueThresh where
  datatype : String
  value : ℚ
  deriving DecidableEq, Repr

/-- The `Literal[...]` band names of a `Threshold`. -/
inductive BandName where
  | warningMin
  | cautionMin
  | criticalMin
  | warningMax
  | cautionMax
  | criticalMax
  deriving DecidableEq, Repr

structure Threshold where
  name : BandName
  value : Option ValueThresh
  deriving DecidableEq, Repr

structure Limit where
  timestamp : String
  thresholds : List Threshold
  deriving DecidableEq, Repr

structure Limits where
  limit : List Limit
  deriving DecidableEq, Repr

structure ValueData where
  start : String
  end_ : String
  valueid : String
  parameter : String
  parameter_value : List ParameterValues
  /-- `Optional[Limits]` with `default_factory=list`: a document without a
  `Limits` element leaves the Python field as `[]`, and the code's guard
  `limits is not None and limits != []` skips both `None` and `[]`, so both
  are modelled as `none`. -/
  limits : Option Limits
  deriving DecidableEq, Repr

structure Values where
  start : String
  end_ : String
  instrument : String
  value_data : List ValueData
  deriving DecidableEq, Repr

structure HealthMonitor where
  enumerations : Enumerations
  instruments : Instruments
  values : Values

structure ResponseData where
  data : List (String × List XValue)
  instrument_name : String

structure ParameterNames where
  name : String
  enumeration : Option String
  deriving DecidableEq, Repr

structure Value_Limits where
  critical_min : Option ℚ
  warning_min : Option ℚ
  caution_min : Option ℚ
  caution_max : Option ℚ
  warning_max : Option ℚ
  critical_max : Option ℚ
  deriving DecidableEq, Repr

/-! ### `collect` (logger.py:184-212) -/

/-- The samples of one `ValueData` in document order, as iterated by the two
nested loops `for value in values: for parameter in value.parameter_value:`. -/
def samplesOf (d : ValueData) : List ParameterValue :=
  d.parameter_value.flatMap (·.parameter_value)

/-- The two inner loops of `collect`: walk one parameter's samples in order,
parse each timestamp (an unparseable one raises `ValueError` out of the
whole call), and keep the values whose timestamp — reinterpreted as UTC by
`.replace(tzinfo=timezone.utc)` — is `>=` the window start. -/
def collectSamples (window : Int) : List ParameterValue → Except PyError (List XValue)
  | [] => .ok []
  | p :: rest =>
    match parse_datetime p.timestamp with
    | none => .error .valueError
    | some vt =>
      match collectSamples window rest with
      | .error e => .error e
      | .ok tail => .ok (if window ≤ toAbs vt then p.value.value :: tail else tail)

/-- The outer loop of `collect`: `setup[name] = []`, then append the
in-window values of every `ParameterValues` block in order. -/
def collectData (window : Int) :
    List ValueData → List (String × List XValue) →
    Except PyError (List (String × List XValue))
  | [], setup => .ok setup
  | d :: rest, setup =>
    match collectSamples window (samplesOf d) with
    | .error e => .error e
    | .ok vals => collectData window rest (dinsert setup d.valueid vals)

/-- `collect` (logger.py:184-212): truncate the document end time to 26
characters plus `"Z"` (`time = time[:26] + "Z"`), parse it, subtract
`timedelta(minutes=1)`, then keep per parameter identifier the sample
values with timestamp `>=` that window start. An unparseable timestamp
(end or sample) raises `ValueError`. The source's locals `instrument_name`
and `time` are inlined. -/
def collect (doc : HealthMonitor) : Except PyError (String × List (String × List XValue)) :=
  match parse_datetime (pyTake doc.values.end_ 26 ++ "Z") with
  | none => .error .valueError
  | some time_obj =>
    match collectData (toAbs time_obj - 60000000) doc.values.value_data [] with
    | .error e => .error e
    | .ok setup => .ok (doc.values.instrument, setup)

/-! ### `limits` (logger.py:249-287)

The source function opens the default file itself via `parse_xml()`; the
resolver logic below is its body from the point where `EMData` is in hand. -/

def emptyValueLimits : Value_Limits := ⟨none, none, none, none, none, none⟩

/-- The `if name == ... / elif ...` chain assigning one band. -/
def setBand (v : Value_Limits) (b : BandName) (x : ℚ) : Value_Limits :=
  match b with
  | .criticalMin => { v with critical_min := some x }
  | .warningMin => { v with warning_min := some x }
  | .cautionMin => { v with caution_min := some x }
  | .cautionMax => { v with caution_max := some x }
  | .warningMax => { v with warning_max := some x }
  | .criticalMax => { v with critical_max := some x }

/-- One `Threshold` step: only a non-null value is assigned; the entry for
`value_id` is created on first assignment (`if value_id not in data`). -/
def limitsStep (data : List (String × Value_Limits)) (value_id : String)
    (threshold : Threshold) : List (String × Value_Limits) :=
  match threshold.value with
  | none => data
  | some tv =>
    let cur := match dlookup data value_id with
               | some v => v
               | none => emptyValueLimits
    dinsert data value_id (setBand cur threshold.name tv.value)

def limits (EMData : HealthMonitor) : List (String × Value_Limits) :=
  EMData.values.value_data.foldl
    (fun data value =>
      match value.limits with
      | none => data
      | some ls =>
        ls.limit.foldl
          (fun data limit =>
            limit.thresholds.foldl
              (fun data threshold => limitsStep data value.valueid threshold)
              data)
          data)
    []

/-! ### `parse_enums` and `component_enums` (logger.py:290-344) -/

def parse_enums (EMData : HealthMonitor) : List (String × List (Int × String)) :=
  EMData.enumerations.enumerations.foldl
    (fun data enum =>
      let name := pyReplace enum.name "_enum" ""
      let values := enum.literals.foldl (fun d lit => dinsert d lit.value lit.name) []
      dinsert data name values)
    []

/-- Metric-name sanitization:
`name.replace(" ", "_").replace(".", "").replace("-", "")`. -/
def sanitizeName (s : String) : String :=
  pyReplace (pyReplace (pyReplace s " " "_") "." "") "-" ""

/-- Build one `ParameterNames` entry from a prefix component name and a
parameter definition, as both branches of `component_enums` do. -/
def paramEntry (prefixName : String) (p : Parameter) : ParameterNames :=
  let name := sanitizeName (prefixName ++ "_" ++ p.name)
  match p.enumerationname with
  | some e => ⟨name, some (pyReplace e "_enum" "")⟩
  | none => ⟨name, none⟩

/-- `component_enums` (logger.py:303-344): for each top-level component,
emit its own parameters when `components is None` (and `parameter` is not
`None`); otherwise, when both `components` and `parameter` are not `None`,
emit one level of child-component parameters. -/
def component_enums (EMData : HealthMonitor) : List (String × ParameterNames) :=
  EMData.instruments.instrument.component.foldl
    (fun rd outer =>
      match outer.components, outer.parameter with
      | none, some params =>
        params.foldl (fun rd p => dinsert rd p.parameterid (paramEntry outer.name p)) rd
      | none, none => rd
      | some inner, some _ =>
        inner.foldl
          (fun rd innerc =>
            match innerc.parameter with
            | some ps =>
              ps.foldl (fun rd p => dinsert rd p.parameterid (paramEntry innerc.name p)) rd
            | none => rd)
          rd
      | some _, none => rd)
    []

/-! ### `push_data` (logger.py:347-360) and `parse_xml` (logger.py:225-246) -/

/-- Models Python `str()` of a float; no claim inspects the rendering. -/
def floatRepr (q : ℚ) : String := toString q

/-- Python `str(v)` for the `Union[int, float, str]` collected values. -/
def pyStr : XValue → String
  | .xStr s => s
  | .xInt n => toString n
  | .xFloat q => floatRepr q

/-- The JSON body POSTed to `{url_base}/set` for one parameter. -/
structure PushPayload where
  type : String
  value : List String
  instrument : String
  deriving DecidableEq, Repr

/-- `push_data`: run `collect`, then POST one payload per parameter whose
value list is truthy (non-empty), in dict-iteration order. The result is
the list of POSTed payloads; delivery is fire-and-forget. -/
def push_data (doc : HealthMonitor) : Except PyError (List PushPayload) :=
  match collect doc with
  | .error e => .error e
  | .ok (instrument_name, data) =>
    .ok (data.filterMap
      (fun pv => if pv.2 = [] then none
                 else some ⟨pv.1, pv.2.map pyStr, instrument_name⟩))

/-- The malformed namespace declaration stripped by `parse_xml` before
validation. -/
def invalidNamespaceDecl : String :=
  " xmlns=\"HealthMonitorExport http://schemas.fei.com/HealthMonitor/Export/2009/07\""

/-- `parse_xml` (logger.py:225-246): strip the known-invalid namespace, then
`HealthMonitor.from_xml`. The pydantic validator is external library code,
so it is a parameter `from_xml` (`none` = `ValidationError`). On failure the
`except ValidationError` arm only prints the diagnostic; the following
`return EMData` then reads the never-assigned local `EMData`, raising
`UnboundLocalError` to the caller. -/
def parse_xml (from_xml : String → Option HealthMonitor) (raw : String) :
    Except PyError HealthMonitor :=
  let xml_data := pyReplace raw invalidNamespaceDecl ""
  match from_xml xml_data with
  | some m => .ok m
  | none => .error .unboundLocalError

/-! ### Server registry and `/set` route (prometheus.py:46-139)

At import time the server builds, from `ComponentList = component_enums(...)`:
`Enumerations` keyed by the component ids whose `ParameterNames.enumeration`
is set, `Gauges` keyed by those whose `enumeration` is `None`, and the
manually declared `increment_map` with keys `"num_loads"` and
`"autofill_times"`. Only the key sets and the state changes applied by
`set_value` matter to the claims, so the prometheus sink objects are
modelled by the `Effect`s applied to them. -/

def Enumerations_keys (cl : List (String × ParameterNames)) : List String :=
  (cl.filter (fun p => p.2.enumeration.isSome)).map (·.1)

def Gauges_keys (cl : List (String × ParameterNames)) : List String :=
  (cl.filter (fun p => p.2.enumeration.isNone)).map (·.1)

def increment_map_keys : List String := ["num_loads", "autofill_times"]

/-- The body of the `/set` request
(`value: List[Union[str, float, int]]`). -/
inductive PValue where
  | pStr (s : String)
  | pInt (n : Int)
  | pFloat (q : ℚ)
  deriving DecidableEq, Repr

structure HealthMonitorData where
  type : String
  instrument : String
  value : List PValue
  deriving DecidableEq, Repr

def spanDigits (l : List Char) : List Nat × List Char :=
  match l with
  | [] => ([], [])
  | c :: rest =>
    if isDigitChar c then
      let (ds, r) := spanDigits rest
      (digitVal c :: ds, r)
    else ([], c :: rest)

def natFromDigits (ds : List Nat) : Nat := ds.foldl (fun a d => a * 10 + d) 0

/-- Models Python `int(s)` on a string: optional sign followed by digits
(`ValueError`, i.e. `none`, otherwise). -/
def parseDecInt (l : List Char) : Option Int :=
  match l with
  | '-' :: rest =>
    let (ds, r) := spanDigits rest
    if ds ≠ [] ∧ r = [] then some (-(natFromDigits ds : Int)) else none
  | '+' :: rest =>
    let (ds, r) := spanDigits rest
    if ds ≠ [] ∧ r = [] then some (natFromDigits ds : Int) else none
  | _ =>
    let (ds, r) := spanDigits l
    if ds ≠ [] ∧ r = [] then some (natFromDigits ds : Nat) else none

/-- Models Python `float(s)` on the plain decimal literals the pipeline
produces (`str()` of collected values): optional sign, digits, optional
fractional part. Anything else is a `ValueError` (`none`). -/
def parseDecFrac (l : List Char) : Option ℚ :=
  let core : List Char → Option ℚ := fun l =>
    let (ids, r) := spanDigits l
    match r with
    | [] => if ids ≠ [] then some (natFromDigits ids : ℚ) else none
    | '.' :: rest =>
      let (fds, r2) := spanDigits rest
      if r2 = [] ∧ (ids ≠ [] ∨ fds ≠ []) then
        some ((natFromDigits ids : ℚ) + (natFromDigits fds : ℚ) / (10 ^ fds.length : ℚ))
      else none
    | _ => none
  match l with
  | '-' :: rest => (core rest).map (fun q => -q)
  | '+' :: rest => core rest
  | _ => core l

/-- Truncation toward zero, as Python `int(float)`. -/
def ratTrunc (q : ℚ) : Int := q.num / (q.den : Int)

/-- Python `int(value)` on a payload value. -/
def pyInt : PValue → Option Int
  | .pInt n => some n
  | .pFloat q => some (ratTrunc q)
  | .pStr s => parseDecInt s.data

/-- Python `float(value)` on a payload value. -/
def pyFloat : PValue → Option ℚ
  | .pInt n => some (n : ℚ)
  | .pFloat q => some q
  | .pStr s => parseDecFrac s.data

/-- A state change applied to a prometheus sink. -/
inductive Effect where
  | enumState (id instr label : String)
  | gaugeSet (id instr : String) (x : ℚ)
  | counterInc (id instr : String)
  deriving DecidableEq, Repr

/-- How one `/set` request terminates. `errorReported` is the
`except ValueError` arm (`return {"error": str(e)}`); `uncaught` is an
exception the handler does not catch, escaping to the framework. -/
inductive PushResult where
  | ok
  | errorReported
  | uncaught (e : PyError)
  deriving DecidableEq, Repr

/-- The `for value in values` loop of the enumeration branch
(prometheus.py:121-127). Each iteration looks up
`ComponentList[header_type].enumeration`, checks it for `None`
(`raise ValueError`, caught), evaluates `Enum_List[enum_val]` (`KeyError`
is not caught), `int(value)` (`ValueError`, caught), then
`Enum_List[enum_val][int(value)]` (`KeyError` is not caught), and finally
applies `.state(...)`. Effects applied before a failure stay applied. -/
def setEnumLoop (enumList : List (String × List (Int × String)))
    (cl : List (String × ParameterNames)) (header instr : String) :
    List PValue → List Effect → PushResult × List Effect
  | [], effs => (.ok, effs)
  | v :: rest, effs =>
    match dlookup cl header with
    | none => (.uncaught .keyError, effs)
    | some pn =>
      match pn.enumeration with
      | none => (.errorReported, effs)
      | some enum_val =>
        match dlookup enumList enum_val with
        | none => (.uncaught .keyError, effs)
        | some lits =>
          match pyInt v with
          | none => (.errorReported, effs)
          | some code =>
            match dlookup lits code with
            | none => (.uncaught .keyError, effs)
            | some label =>
              setEnumLoop enumList cl header instr rest
                (effs ++ [.enumState header instr label])

/-- `set_value` (prometheus.py:102-139): route the payload by membership of
`payload.type` in `Enumerations`, `Gauges`, `increment_map`, in that order;
an unknown type raises `ValueError("Invalid type")`, which the handler
catches and reports. -/
def set_value (enumList : List (String × List (Int × String)))
    (cl : List (String × ParameterNames)) (payload : HealthMonitorData) :
    PushResult × List Effect :=
  let values := payload.value
  let header_type := payload.type
  let instrument_name := payload.instrument
  if header_type ∈ Enumerations_keys cl then
    setEnumLoop enumList cl header_type instrument_name values []
  else if header_type ∈ Gauges_keys cl then
    match values.getLast? with
    | none => (.uncaught .indexError, [])
    | some v =>
      match pyFloat v with
      | none => (.errorReported, [])
      | some x => (.ok, [.gaugeSet header_type instrument_name x])
  else if header_type ∈ increment_map_keys then
    (.ok, [.counterInc header_type instrument_name])
  else
    (.errorReported, [])

/-! ### The window-inclusion rule as the specification states it

These definitions follow the spec's words for the Windowed Collector
("a sample is collected iff its own timestamp, normalized to the same
reference time zone, is greater than or equal to window start", window =
reference end time minus one minute) and are compared against `collect`. -/

/-- The spec's inclusion rule for one sample: its timestamp, normalized to
the reference time zone, is `>=` the window start `endAbs - 1 minute`. -/
def specInWindow (windowStart : Int) (s : ParameterValue) : Bool :=
  match parse_datetime s.timestamp with
  | some t => windowStart ≤ toAbs t
  | none => false

/-- The spec's collected value list for one parameter: the values of
exactly the samples satisfying the inclusion rule, in document order. -/
def specWindowValues (endAbs : Int) (d : ValueData) : List XValue :=
  ((samplesOf d).filter (specInWindow (endAbs - 60000000))).map (·.value.value)

/-! ### Helper lemmas about `collect` -/

/-- Total refinement of `collectSamples` (used when every timestamp parses). -/
def collectSamplesF (w : Int) (l : List ParameterValue) : List XValue :=
  (l.filter (specInWindow w)).map (·.value.value)

/-- Total refinement of `collectData`. -/
def collectDataF (w : Int) (ds : List ValueData) (setup : List (String × List XValue)) :
    List (String × List XValue) :=
  ds.foldl (fun setup d => dinsert setup d.valueid (collectSamplesF w (samplesOf d))) setup

theorem collectSamples_ok (w : Int) (l : List ParameterValue)
    (h : ∀ s ∈ l, (parse_datetime s.timestamp).isSome) :
    collectSamples w l = .ok (collectSamplesF w l) := by
  induction l with
  | nil => rfl
  | cons p rest ih =>
    have hp : (parse_datetime p.timestamp).isSome := h p (by simp)
    obtain ⟨t, ht⟩ := Option.isSome_iff_exists.mp hp
    have hrest : ∀ s ∈ rest, (parse_datetime s.timestamp).isSome :=
      fun s hs => h s (by simp [hs])
    simp only [collectSamples, ht, ih hrest, collectSamplesF, List.filter_cons,
      specInWindow]
    by_cases hw : w ≤ toAbs t
    · simp [ht, hw]
    · simp [ht, hw]

theorem collectSamples_error (w : Int) (l : List ParameterValue)
    (h : ∃ s ∈ l, parse_datetime s.timestamp = none) :
    collectSamples w l = .error .valueError := by
  induction l with
  | nil => simp at h
  | cons p rest ih =>
    rcases h with ⟨s, hs, hnone⟩
    rcases List.mem_cons.mp hs with h1 | h2
    · subst h1
      simp [collectSamples, hnone]
    · simp only [collectSamples]
      cases hp : parse_datetime p.timestamp with
      | none => rfl
      | some t => rw [ih ⟨s, h2, hnone⟩]

theorem collectData_ok (w : Int) (ds : List ValueData) (setup : List (String × List XValue))
    (h : ∀ d ∈ ds, ∀ s ∈ samplesOf d, (parse_datetime s.timestamp).isSome) :
    collectData w ds setup = .ok (collectDataF w ds setup) := by
  induction ds generalizing setup with
  | nil => rfl
  | cons d rest ih =>
    have hd : ∀ s ∈ samplesOf d, (parse_datetime s.timestamp).isSome :=
      h d (by simp)
    have hrest : ∀ d' ∈ rest, ∀ s ∈ samplesOf d', (parse_datetime s.timestamp).isSome :=
      fun d' hd' => h d' (by simp [hd'])
    simp only [collectData, collectSamples_ok w _ hd, collectDataF, List.foldl_cons]
    exact ih _ hrest

theorem collectData_error (w : Int) (ds : List ValueData) (setup : List (String × List XValue))
    (h : ∃ d ∈ ds, ∃ s ∈ samplesOf d, parse_datetime s.timestamp = none) :
    collectData w ds setup = .error .valueError := by
  induction ds generalizing setup with
  | nil => simp at h
  | cons d rest ih =>
    rcases h with ⟨d', hd', s, hs, hnone⟩
    rcases List.mem_cons.mp hd' with h1 | h2
    · subst h1
      simp [collectData, collectSamples_error w _ ⟨s, hs, hnone⟩]
    · simp only [collectData]
      cases hcs : collectSamples w (samplesOf d) with
      | error e =>
        have he : e = .valueError := by
          by_cases hall : ∀ s' ∈ samplesOf d, (parse_datetime s'.timestamp).isSome
          · rw [collectSamples_ok w _ hall] at hcs; cases hcs
          · push_neg at hall
            obtain ⟨s', hs', hn⟩ := hall
            rw [collectSamples_error w _
              ⟨s', hs', Option.not_isSome_iff_eq_none.mp hn⟩] at hcs
            exact (Except.error.injEq _ _).mp hcs.symm
        rw [he]
      | ok vals => exact ih _ ⟨d', h2, s, hs, hnone⟩

theorem collectDataF_lookup_not_mem (w : Int) (ds : List ValueData)
    (setup : List (String × List XValue)) (k : String)
    (h : k ∉ ds.map (·.valueid)) :
    dlookup (collectDataF w ds setup) k = dlookup setup k := by
  induction ds generalizing setup with
  | nil => rfl
  | cons d rest ih =>
    simp only [List.map_cons, List.mem_cons, not_or] at h
    simp only [collectDataF, List.foldl_cons]
    rw [show rest.foldl _ _ = collectDataF w rest _ from rfl, ih _ h.2,
      dlookup_dinsert_ne _ _ _ _ (fun he => h.1 he.symm)]

theorem collectDataF_lookup_mem (w : Int) (ds : List ValueData)
    (setup : List (String × List XValue)) (d : ValueData)
    (hmem : d ∈ ds) (hnd : (ds.map (·.valueid)).Nodup) :
    dlookup (collectDataF w ds setup) d.valueid =
      some (collectSamplesF w (samplesOf d)) := by
  induction ds generalizing setup with
  | nil => simp at hmem
  | cons d0 rest ih =>
    simp only [List.map_cons, List.nodup_cons] at hnd
    rcases List.mem_cons.mp hmem with h1 | h2
    · subst h1
      simp only [collectDataF, List.foldl_cons]
      rw [show rest.foldl _ _ = collectDataF w rest _ from rfl,
        collectDataF_lookup_not_mem w rest _ _ hnd.1, dlookup_dinsert_self]
    · simp only [collectDataF, List.foldl_cons]
      exact ih _ h2 hnd.2

theorem mem_dkeys_dinsert_self {α β : Type} [DecidableEq α]
    (l : List (α × β)) (k : α) (v : β) : k ∈ dkeys (dinsert l k v) := by
  rw [dkeys_dinsert]
  by_cases h : k ∈ dkeys l <;> simp [h]

theorem mem_dkeys_dinsert_of_mem {α β : Type} [DecidableEq α]
    (l : List (α × β)) (k k' : α) (v : β) (h : k ∈ dkeys l) :
    k ∈ dkeys (dinsert l k' v) := by
  rw [dkeys_dinsert]
  by_cases h' : k' ∈ dkeys l <;> simp [h', h]

theorem collectDataF_keys_mono (w : Int) (ds : List ValueData)
    (setup : List (String × List XValue)) (k : String) (h : k ∈ dkeys setup) :
    k ∈ dkeys (collectDataF w ds setup) := by
  induction ds generalizing setup with
  | nil => exact h
  | cons d rest ih =>
    simp only [collectDataF, List.foldl_cons]
    exact ih _ (mem_dkeys_dinsert_of_mem _ _ _ _ h)

theorem collectDataF_keys_mem (w : Int) (ds : List ValueData)
    (setup : List (String × List XValue)) (d : ValueData) (hmem : d ∈ ds) :
    d.valueid ∈ dkeys (collectDataF w ds setup) := by
  induction ds generalizing setup with
  | nil => simp at hmem
  | cons d0 rest ih =>
    simp only [collectDataF, List.foldl_cons]
    rcases List.mem_cons.mp hmem with h1 | h2
    · subst h1
      exact collectDataF_keys_mono w rest _ _ (mem_dkeys_dinsert_self _ _ _)
    · exact ih _ h2

theorem collectDataF_keys_nodup (w : Int) (ds : List ValueData)
    (setup : List (String × List XValue)) (h : (dkeys setup).Nodup) :
    (dkeys (collectDataF w ds setup)).Nodup := by
  induction ds generalizing setup with
  | nil => exact h
  | cons d rest ih =>
    simp only [collectDataF, List.foldl_cons]
    refine ih _ ?_
    rw [dkeys_dinsert]
    by_cases hm : d.valueid ∈ dkeys setup
    · simpa [hm] using h
    · simp only [hm, if_false]
      exact List.Nodup.append h (List.nodup_singleton _)
        (fun a ha hb => hm (by rwa [List.mem_singleton.mp hb] at ha))

theorem dlookup_of_mem_nodup {α β : Type} [DecidableEq α]
    {l : List (α × β)} {k : α} {v : β}
    (hmem : (k, v) ∈ l) (hnd : (dkeys l).Nodup) : dlookup l k = some v := by
  induction l with
  | nil => simp at hmem
  | cons p t ih =>
    obtain ⟨k', v'⟩ := p
    simp only [dkeys, List.map_cons, List.nodup_cons] at hnd
    rcases List.mem_cons.mp hmem with h1 | h2
    · cases h1
      simp [dlookup_cons]
    · have hk : k' ≠ k := by
        rintro rfl
        exact hnd.1 (List.mem_map.mpr ⟨(k', v), h2, rfl⟩)
      rw [dlookup_cons, if_neg hk]
      exact ih h2 hnd.2

/-- A successful `collectData` forces every timestamp to have parsed, and
its output is the total refinement. -/
theorem collectData_ok_inv (w : Int) (ds : List ValueData)
    (setup out : List (String × List XValue))
    (h : collectData w ds setup = .ok out) : out = collectDataF w ds setup := by
  by_cases hall : ∀ d ∈ ds, ∀ s ∈ samplesOf d, (parse_datetime s.timestamp).isSome
  · rw [collectData_ok _ _ _ hall] at h
    exact ((Except.ok.injEq _ _).mp h).symm
  · push_neg at hall
    obtain ⟨d, hd, s, hs, hn⟩ := hall
    rw [collectData_error _ _ _ ⟨d, hd, s, hs, Option.not_isSome_iff_eq_none.mp hn⟩] at h
    cases h

instance {ε α : Type} [DecidableEq ε] [DecidableEq α] : DecidableEq (Except ε α)
  | .error e, .error e' =>
    if h : e = e' then .isTrue (by rw [h])
    else .isFalse (by intro hc; cases hc; exact h rfl)
  | .error _, .ok _ => .isFalse (by intro hc; cases hc)
  | .ok _, .error _ => .isFalse (by intro hc; cases hc)
  | .ok a, .ok a' =>
    if h : a = a' then .isTrue (by rw [h])
    else .isFalse (by intro hc; cases hc; exact h rfl)

/-! ### Concrete document fixtures for witnesses and counterexamples -/

/-- A parameter definition whose display/formatting metadata is blank. -/
def mkParameter (id nm : String) (enum : Option String) : Parameter :=
  ⟨id, "", "", nm, "", "", enum, "", "", "", "", "", "", "", ""⟩

def sampleAt (ts : String) (v : XValue) : ParameterValue := ⟨ts, ⟨"Double", v⟩⟩

/-- End time of the window-scenario document. -/
def c1end : DT := ⟨2024, 8, 13, 14, 53, 21, 123456, none⟩

/-- A document whose single parameter `P1` has one sample exactly at the
document end time, one exactly 60 s before it, and one 61 s before it. -/
def c1doc : HealthMonitor :=
  ⟨⟨[]⟩, ⟨⟨"Krios4", "", "", "", []⟩⟩,
   ⟨"2024-08-13T13:53:21.123456Z", "2024-08-13T14:53:21.123456Z", "Krios4",
    [⟨"2024-08-13T13:53:21.123456Z", "2024-08-13T14:53:21.123456Z", "P1", "Temperature",
      [⟨[sampleAt "2024-08-13T14:53:21.123456Z" (.xFloat 1),
         sampleAt "2024-08-13T14:52:21.123456Z" (.xFloat 2),
         sampleAt "2024-08-13T14:52:20.123456Z" (.xFloat 3)]⟩], none⟩]⟩⟩

/-- A document whose Instruments tree declares parameter `P1` but whose
Values section has no `ValueData` entry at all. -/
def c2doc : HealthMonitor :=
  ⟨⟨[]⟩,
   ⟨⟨"Krios4", "", "", "",
     [.mk "FEG" "" "" none (some [mkParameter "P1" "Temperature" none])]⟩⟩,
   ⟨"2024-08-13T13:53:21.123456Z", "2024-08-13T14:53:21.123456Z", "Krios4", []⟩⟩

/-- A document in which parameter `P1` has one sample with an unparseable
timestamp followed by one in-window sample with a parseable timestamp. -/
def c5doc : HealthMonitor :=
  ⟨⟨[]⟩, ⟨⟨"Krios4", "", "", "", []⟩⟩,
   ⟨"2024-08-13T13:53:21.123456Z", "2024-08-13T14:53:21.123456Z", "Krios4",
    [⟨"2024-08-13T13:53:21.123456Z", "2024-08-13T14:53:21.123456Z", "P1", "Temperature",
      [⟨[sampleAt "13/08/2024 14:53" (.xFloat 1),
         sampleAt "2024-08-13T14:53:21.123456Z" (.xFloat 2)]⟩], none⟩]⟩⟩

/-! ### Claims -/

/-- C1: For every well-formed document (end timestamp parseable, all sample
timestamps parseable, parameter identifiers distinct) and every sample in
its Values section, `collect` includes the sample's value in the output
list of its parameter identifier if and only if the sample's timestamp,
normalized to the reference time zone, is `>=` the document's reported end
time minus the 1-minute window: each parameter's output list is exactly the
in-window samples' values (`specWindowValues`, the spec's inclusion rule),
in document order. -/
theorem C1_collect_window_inclusion (doc : HealthMonitor) (te : DT)
    (hend : parse_datetime (pyTake doc.values.end_ 26 ++ "Z") = some te)
    (hts : ∀ d ∈ doc.values.value_data, ∀ s ∈ samplesOf d,
      (parse_datetime s.timestamp).isSome)
    (hids : (doc.values.value_data.map (·.valueid)).Nodup) :
    ∃ setup, collect doc = .ok (doc.values.instrument, setup) ∧
      ∀ d ∈ doc.values.value_data,
        dlookup setup d.valueid = some (specWindowValues (toAbs te) d) := by
  refine ⟨collectDataF (toAbs te - 60000000) doc.values.value_data [], ?_, ?_⟩
  · simp only [collect, hend, collectData_ok _ _ _ hts]
  · intro d hd
    rw [collectDataF_lookup_mem _ _ _ _ hd hids]
    rfl

/-- Witness for C1 on `c1doc`: the sample timestamped exactly at the end
time and the one exactly 60 s before are included, the one 61 s before the
end time is excluded. -/
theorem C1_collect_window_inclusion_witness :
    (∃ setup, collect c1doc = .ok (c1doc.values.instrument, setup) ∧
      ∀ d ∈ c1doc.values.value_data,
        dlookup setup d.valueid = some (specWindowValues (toAbs c1end) d))
    ∧ collect c1doc = .ok ("Krios4", [("P1", [.xFloat 1, .xFloat 2])]) :=
  ⟨C1_collect_window_inclusion c1doc c1end (by decide) (by decide) (by decide),
   by decide⟩

/-- C2 counterexample: `c2doc` is well formed (its end time parses and it
validates against the schema), its Instruments tree declares parameter
`P1`, yet `collect` returns an output mapping with no `P1` key — the
collector's keys come from the Values section, not the Instruments tree. -/
theorem C2_counterexample :
    (∃ c ∈ c2doc.instruments.instrument.component,
      ∃ ps, c.parameter = some ps ∧ ∃ p ∈ ps, p.parameterid = "P1")
    ∧ ∃ setup, collect c2doc = .ok ("Krios4", setup) ∧ "P1" ∉ dkeys setup := by
  refine ⟨⟨Component.mk "FEG" "" "" none (some [mkParameter "P1" "Temperature" none]),
    List.mem_singleton.mpr rfl,
    [mkParameter "P1" "Temperature" none], rfl,
    mkParameter "P1" "Temperature" none, List.mem_singleton.mpr rfl, rfl⟩,
    [], by decide, by decide⟩

/-- C2 amended: for every document on which `collect` succeeds, every
parameter identifier that has a `ValueData` entry in the Values section
appears as a key of the output mapping, possibly with an empty value list
(identifiers that appear only in the Instruments tree need not). -/
theorem C2_collect_keys_from_values_section (doc : HealthMonitor)
    (n : String) (setup : List (String × List XValue))
    (h : collect doc = .ok (n, setup)) :
    ∀ d ∈ doc.values.value_data, d.valueid ∈ dkeys setup := by
  intro d hd
  cases hend : parse_datetime (pyTake doc.values.end_ 26 ++ "Z") with
  | none => simp [collect, hend] at h
  | some te =>
    simp only [collect, hend] at h
    cases hcd : collectData (toAbs te - 60000000) doc.values.value_data [] with
    | error e => simp [hcd] at h
    | ok s =>
      simp only [hcd] at h
      have hs : setup = s := by
        have := (Except.ok.injEq _ _).mp h
        exact (congrArg Prod.snd this).symm
      rw [hs, collectData_ok_inv _ _ _ _ hcd]
      exact collectDataF_keys_mem _ _ _ _ hd

/-- Witness for the amended C2 on `c1doc` and its `P1` entry. -/
theorem C2_collect_keys_from_values_section_witness :
    ("P1" : String) ∈ dkeys [("P1", [XValue.xFloat 1, XValue.xFloat 2])] :=
  C2_collect_keys_from_values_section c1doc "Krios4"
    [("P1", [XValue.xFloat 1, XValue.xFloat 2])] (by decide)
    (c1doc.values.value_data.head (by decide)) (by decide)

/-- C5 counterexample: in `c5doc`, parameter `P1` has one sample with an
unparseable timestamp and one distinct, parseable, in-window sample; yet
`collect` raises `ValueError` for the whole collection, so the remaining
sample of the same collection is not processed and nothing is returned. -/
theorem C5_counterexample :
    (∃ d ∈ c5doc.values.value_data,
      (∃ s ∈ samplesOf d, parse_datetime s.timestamp = none) ∧
      (∃ s' ∈ samplesOf d, (parse_datetime s'.timestamp).isSome))
    ∧ collect c5doc = .error .valueError := by
  constructor
  · refine ⟨c5doc.values.value_data.head (by decide), by decide, ?_, ?_⟩
    · exact ⟨sampleAt "13/08/2024 14:53" (.xFloat 1), by decide, by decide⟩
    · exact ⟨sampleAt "2024-08-13T14:53:21.123456Z" (.xFloat 2), by decide, by decide⟩
  · decide

/-- C5 amended: a sample timestamp that matches none of the accepted
formats is not confined to that sample — it makes the whole `collect` call
raise `ValueError`, so no samples or parameters of that collection are
returned at all. -/
theorem C5_bad_timestamp_aborts_collection (doc : HealthMonitor)
    (h : ∃ d ∈ doc.values.value_data, ∃ s ∈ samplesOf d,
      parse_datetime s.timestamp = none) :
    collect doc = .error .valueError := by
  cases hend : parse_datetime (pyTake doc.values.end_ 26 ++ "Z") with
  | none => simp [collect, hend]
  | some te => simp [collect, hend, collectData_error _ _ _ h]

/-- Witness for the amended C5 on `c5doc`. -/
theorem C5_bad_timestamp_aborts_collection_witness :
    collect c5doc = .error .valueError :=
  C5_bad_timestamp_aborts_collection c5doc
    ⟨c5doc.values.value_data.head (by decide), by decide,
     sampleAt "13/08/2024 14:53" (.xFloat 1), by decide, by decide⟩

/-- A document declaring enumeration `ObjectiveMode_enum` with literal
codes 0 (`Off`) and 1 (`On`), bound to parameter `P2`. -/
def c3doc : HealthMonitor :=
  ⟨⟨[⟨"ObjectiveMode_enum", "Krios4", [⟨"Off", 0⟩, ⟨"On", 1⟩]⟩]⟩,
   ⟨⟨"Krios4", "", "", "",
     [.mk "Column" "" "" none
       (some [mkParameter "P2" "ObjectiveMode" (some "ObjectiveMode_enum")])]⟩⟩,
   ⟨"2024-08-13T13:53:21.123456Z", "2024-08-13T14:53:21.123456Z", "Krios4", []⟩⟩

/-- C3 (code bug): with the registry built from `c3doc`
(`Enum_List = parse_enums`, `ComponentList = component_enums`), pushing
`value: ["2"]` for enumerated parameter `P2`, whose enumeration declares
only codes 0 and 1, does not produce the reported unknown-enumeration-code
error the spec requires: the lookup `Enum_List[enum_val][int(value)]`
raises `KeyError`, which the handler — catching only `ValueError` — lets
escape, so the push path crashes with an uncaught exception instead of
reporting the error; no state mutation occurs for that value. Pushing the
declared code 1 succeeds, showing the registry itself is consistent. -/
theorem C3_unknown_enum_code_uncaught_keyerror :
    set_value (parse_enums c3doc) (component_enums c3doc)
      ⟨"P2", "Krios4", [.pStr "2"]⟩ = (.uncaught .keyError, [])
    ∧ set_value (parse_enums c3doc) (component_enums c3doc)
      ⟨"P2", "Krios4", [.pStr "1"]⟩ = (.ok, [.enumState "P2" "Krios4" "On"]) := by
  constructor
  · decide
  · decide

/-- C4 (code bug): when schema validation fails (`from_xml` yields no
model), `parse_xml` prints the diagnostic but then executes
`return EMData` with the local `EMData` never assigned, so the caller gets
an `UnboundLocalError` — the cycle aborts with an exception instead of
being observed as "no data this cycle". -/
theorem C4_parse_xml_raises_on_invalid_doc :
    parse_xml (fun _ => none) "<not a health monitor document>" =
      .error .unboundLocalError := rfl

/-! ### The Identity Resolver traversal as the specification states it -/

/-- The identities one top-level component contributes, per the spec's
traversal rule: no children — its own parameters under its own name as
prefix; children — each child's parameters under the child's name as
prefix (its own parameters are not emitted). -/
def specIdentityEmit (c : Component) : List (String × ParameterNames) :=
  match c.components with
  | none => (c.parameter.getD []).map (fun p => (p.parameterid, paramEntry c.name p))
  | some kids =>
    kids.flatMap (fun k =>
      (k.parameter.getD []).map (fun p => (p.parameterid, paramEntry k.name p)))

/-- The full Identity Resolver map, per the spec: emit identities component
by component and enter them into the mapping in that order. -/
def componentEnumsSpec (EMData : HealthMonitor) : List (String × ParameterNames) :=
  (EMData.instruments.instrument.component.flatMap specIdentityEmit).foldl
    (fun rd p => dinsert rd p.1 p.2) []

theorem dinsert_foldl_append {α β : Type} [DecidableEq α]
    (a b : List (α × β)) (rd : List (α × β)) :
    (a ++ b).foldl (fun rd p => dinsert rd p.1 p.2) rd =
      b.foldl (fun rd p => dinsert rd p.1 p.2)
        (a.foldl (fun rd p => dinsert rd p.1 p.2) rd) :=
  List.foldl_append _ _ _ _

theorem component_enums_inner_eq (kids : List Component)
    (rd : List (String × ParameterNames)) :
    kids.foldl
      (fun rd innerc =>
        match innerc.parameter with
        | some ps =>
          ps.foldl (fun rd p => dinsert rd p.parameterid (paramEntry innerc.name p)) rd
        | none => rd)
      rd =
    (kids.flatMap (fun k =>
      (k.parameter.getD []).map (fun p => (p.parameterid, paramEntry k.name p)))).foldl
      (fun rd p => dinsert rd p.1 p.2) rd := by
  induction kids generalizing rd with
  | nil => rfl
  | cons k rest ih =>
    simp only [List.foldl_cons, List.flatMap_cons, dinsert_foldl_append]
    rw [← ih]
    congr 1
    cases hp : k.parameter with
    | none => simp
    | some ps => simp [List.foldl_map]

/-- C6: the Identity Resolver maps each emitted parameter identifier to the
metric name `<prefix>_<parameterName>` with spaces replaced by underscores
and dots and hyphens removed, where the prefix is the top-level component's
own name when it has no children, and the child component's name when it
has children; a top-level component with both children and own parameters
contributes only its children's parameters. The hypothesis states the shape
every parsed document has (the parser's `default_factory=list` never leaves
`parameter` as `None`). -/
theorem component_enums_outer_eq (cs : List Component)
    (rd : List (String × ParameterNames))
    (hwf : ∀ c ∈ cs, c.components.isSome → c.parameter ≠ none) :
    cs.foldl
      (fun rd outer =>
        match outer.components, outer.parameter with
        | none, some params =>
          params.foldl (fun rd p => dinsert rd p.parameterid (paramEntry outer.name p)) rd
        | none, none => rd
        | some inner, some _ =>
          inner.foldl
            (fun rd innerc =>
              match innerc.parameter with
              | some ps =>
                ps.foldl (fun rd p => dinsert rd p.parameterid (paramEntry innerc.name p)) rd
              | none => rd)
            rd
        | some _, none => rd)
      rd =
    (cs.flatMap specIdentityEmit).foldl (fun rd p => dinsert rd p.1 p.2) rd := by
  induction cs generalizing rd with
  | nil => rfl
  | cons c rest ih =>
    have hc := hwf c (List.mem_cons_self c rest)
    have hrest : ∀ c' ∈ rest, c'.components.isSome → c'.parameter ≠ none :=
      fun c' h' => hwf c' (List.mem_cons_of_mem _ h')
    simp only [List.foldl_cons, List.flatMap_cons, dinsert_foldl_append]
    rw [← ih _ hrest]
    congr 1
    cases hcs : c.components with
    | none =>
      cases hp : c.parameter with
      | none => simp [specIdentityEmit, hcs, hp]
      | some ps => simp [specIdentityEmit, hcs, hp, List.foldl_map]
    | some kids =>
      cases hp : c.parameter with
      | none => exact absurd hp (hc (by simp [hcs]))
      | some ps =>
        simp only [specIdentityEmit, hcs, hp]
        exact component_enums_inner_eq kids rd

/-- C6: the Identity Resolver maps each emitted parameter identifier to the
metric name `<prefix>_<parameterName>` with spaces replaced by underscores
and dots and hyphens removed, where the prefix is the top-level component's
own name when it has no children, and the child component's name when it
has children; a top-level component with both children and own parameters
contributes only its children's parameters. The hypothesis states the shape
every parsed document has (the parser's `default_factory=list` never leaves
`parameter` as `None`). -/
theorem C6_identity_resolver_refines_spec (doc : HealthMonitor)
    (hwf : ∀ c ∈ doc.instruments.instrument.component,
      c.components.isSome → c.parameter ≠ none) :
    component_enums doc = componentEnumsSpec doc :=
  component_enums_outer_eq doc.instruments.instrument.component [] hwf

/-- The component tree used to witness C6: `FEG` has no children and its
own parameter `P1`; `Stage` has children (one with parameter `P4`, one
with none) and an own parameter `P3` that must not be emitted. -/
def c6doc : HealthMonitor :=
  ⟨⟨[]⟩,
   ⟨⟨"Krios4", "", "", "",
     [.mk "FEG" "" "" none (some [mkParameter "P1" "Gun.Temp-A B" none]),
      .mk "Stage" "" "" (some
          [.mk "Stage Ax.is-1" "" "" none
            (some [mkParameter "P4" "Pos X" (some "Mode_enum")]),
           .mk "Empty" "" "" none none])
        (some [mkParameter "P3" "Own" none])]⟩⟩,
   ⟨"2024-08-13T13:53:21.123456Z", "2024-08-13T14:53:21.123456Z", "Krios4", []⟩⟩

/-- Witness for C6 on `c6doc`: the resolver agrees with the spec traversal,
`P1` gets prefix `FEG`, `P4` gets the sanitized child prefix, and the
pass-through parent's own `P3` is absent. -/
theorem C6_identity_resolver_refines_spec_witness :
    component_enums c6doc = componentEnumsSpec c6doc
    ∧ component_enums c6doc =
      [("P1", ⟨"FEG_GunTempA_B", none⟩),
       ("P4", ⟨"Stage_Axis1_Pos_X", some "Mode"⟩)] :=
  ⟨C6_identity_resolver_refines_spec c6doc
    (by
      intro c hc hsome
      simp only [c6doc, List.mem_cons, List.mem_singleton] at hc
      rcases hc with rfl | rfl | h
      · simp [Component.components] at hsome
      · simp [Component.parameter]
      · simp at h),
   by decide⟩

/-! ### The Threshold Resolver as the specification states it -/

/-- Read one band of a `Value_Limits` record. -/
def getBand (v : Value_Limits) : BandName → Option ℚ
  | .criticalMin => v.critical_min
  | .warningMin => v.warning_min
  | .cautionMin => v.caution_min
  | .cautionMax => v.caution_max
  | .warningMax => v.warning_max
  | .criticalMax => v.critical_max

/-- The non-null `(band, value)` entries of one limit record's thresholds,
in document order. -/
def bandEntries (ts : List Threshold) : List (BandName × ℚ) :=
  ts.filterMap (fun t => t.value.map (fun tv => (t.name, tv.value)))

/-- The limit records belonging to one parameter identifier, across all of
its `ValueData` entries, in document order. -/
def limitRecordsOf (doc : HealthMonitor) (id : String) : List Limit :=
  doc.values.value_data.flatMap (fun d =>
    if d.valueid = id then
      (match d.limits with
       | some ls => ls.limit
       | none => [])
    else [])

/-- All non-null band assignments of one parameter, in document order. -/
def assignmentsOf (doc : HealthMonitor) (id : String) : List (BandName × ℚ) :=
  (limitRecordsOf doc id).flatMap (fun lim => bandEntries lim.thresholds)

/-- The last value assigned to a band of a parameter (last record wins). -/
def lastAssigned (doc : HealthMonitor) (id : String) (b : BandName) : Option ℚ :=
  (((assignmentsOf doc id).filter (fun p => p.1 = b)).getLast?).map (·.2)

/-- The Threshold Resolver output at one parameter, per the spec: absent
when the parameter has no non-null band assignment; otherwise each named
band carries the last value assigned to it. -/
def limitsSpecAt (doc : HealthMonitor) (id : String) : Option Value_Limits :=
  if assignmentsOf doc id = [] then none
  else some ⟨lastAssigned doc id .criticalMin, lastAssigned doc id .warningMin,
             lastAssigned doc id .cautionMin, lastAssigned doc id .cautionMax,
             lastAssigned doc id .warningMax, lastAssigned doc id .criticalMax⟩

/-! ### Helper lemmas about `limits` -/

/-- The effect of one non-null threshold entry. -/
def applyAssign (data : List (String × Value_Limits)) (id : String)
    (b : BandName) (x : ℚ) : List (String × Value_Limits) :=
  dinsert data id
    (setBand (match dlookup data id with
              | some v => v
              | none => emptyValueLimits) b x)

theorem limitsStep_eq (data : List (String × Value_Limits)) (vid : String)
    (t : Threshold) :
    limitsStep data vid t =
      match t.value with
      | none => data
      | some tv => applyAssign data vid t.name tv.value := by
  cases ht : t.value <;> simp [limitsStep, applyAssign, ht]

def applySteps (data : List (String × Value_Limits))
    (steps : List (String × BandName × ℚ)) : List (String × Value_Limits) :=
  steps.foldl (fun data st => applyAssign data st.1 st.2.1 st.2.2) data

def threshSteps (vid : String) (ts : List Threshold) : List (String × BandName × ℚ) :=
  ts.filterMap (fun t => t.value.map (fun tv => (vid, t.name, tv.value)))

theorem applySteps_append (data : List (String × Value_Limits))
    (a b : List (String × BandName × ℚ)) :
    applySteps data (a ++ b) = applySteps (applySteps data a) b :=
  List.foldl_append _ _ _ _

theorem thresh_fold_eq (vid : String) (ts : List Threshold)
    (data : List (String × Value_Limits)) :
    ts.foldl (fun data t => limitsStep data vid t) data =
      applySteps data (threshSteps vid ts) := by
  induction ts generalizing data with
  | nil => rfl
  | cons t rest ih =>
    simp only [List.foldl_cons, limitsStep_eq]
    cases ht : t.value with
    | none => simp only [threshSteps, List.filterMap_cons, ht, Option.map_none]
              exact ih data
    | some tv =>
      simp only [threshSteps, List.filterMap_cons, ht, Option.map_some]
      exact ih _

theorem limit_fold_eq (vid : String) (ls : List Limit)
    (data : List (String × Value_Limits)) :
    ls.foldl
      (fun data limit =>
        limit.thresholds.foldl
          (fun data threshold => limitsStep data vid threshold) data)
      data =
      applySteps data (ls.flatMap (fun lim => threshSteps vid lim.thresholds)) := by
  induction ls generalizing data with
  | nil => rfl
  | cons lim rest ih =>
    simp only [List.foldl_cons, List.flatMap_cons, applySteps_append]
    rw [thresh_fold_eq]
    exact ih _

/-- The flattened assignment stream the triple loop of `limits` applies. -/
def stepsOf (doc : HealthMonitor) : List (String × BandName × ℚ) :=
  doc.values.value_data.flatMap (fun d =>
    match d.limits with
    | none => []
    | some ls => ls.limit.flatMap (fun lim => threshSteps d.valueid lim.thresholds))

theorem limits_eq_applySteps (doc : HealthMonitor) :
    limits doc = applySteps [] (stepsOf doc) := by
  unfold limits stepsOf
  generalize ([] : List (String × Value_Limits)) = data
  induction doc.values.value_data generalizing data with
  | nil => rfl
  | cons d rest ih =>
    simp only [List.foldl_cons, List.flatMap_cons, applySteps_append]
    cases hl : d.limits with
    | none => simp only [hl]; exact ih _
    | some ls =>
      simp only [hl]
      rw [limit_fold_eq]
      exact ih _

def applyBands (v : Value_Limits) (as : List (BandName × ℚ)) : Value_Limits :=
  as.foldl (fun v p => setBand v p.1 p.2) v

def stepsFor (id : String) (steps : List (String × BandName × ℚ)) :
    List (BandName × ℚ) :=
  (steps.filter (fun st => st.1 = id)).map (·.2)

def combine (cur : Option Value_Limits) (as : List (BandName × ℚ)) :
    Option Value_Limits :=
  match as with
  | [] => cur
  | _ => some (applyBands (cur.getD emptyValueLimits) as)

theorem dlookup_applySteps (steps : List (String × BandName × ℚ))
    (data : List (String × Value_Limits)) (id : String) :
    dlookup (applySteps data steps) id =
      combine (dlookup data id) (stepsFor id steps) := by
  induction steps generalizing data with
  | nil => rfl
  | cons st rest ih =>
    obtain ⟨id', b, x⟩ := st
    have hstep : applySteps data ((id', b, x) :: rest) =
        applySteps (applyAssign data id' b x) rest := rfl
    rw [hstep, ih (applyAssign data id' b x)]
    by_cases hid : id' = id
    · subst hid
      have hlk : dlookup (applyAssign data id' b x) id' =
          some (setBand ((dlookup data id').getD emptyValueLimits) b x) := by
        unfold applyAssign
        rw [dlookup_dinsert_self]
        cases dlookup data id' <;> rfl
      rw [hlk]
      have hsf : stepsFor id' ((id', b, x) :: rest) = (b, x) :: stepsFor id' rest := by
        simp [stepsFor]
      rw [hsf]
      cases hr : stepsFor id' rest with
      | nil => rfl
      | cons y t => rfl
    · have hlk : dlookup (applyAssign data id' b x) id = dlookup data id := by
        unfold applyAssign
        exact dlookup_dinsert_ne _ _ _ _ hid
      have hsf : stepsFor id ((id', b, x) :: rest) = stepsFor id rest := by
        simp [stepsFor, hid]
      rw [hlk, hsf]

theorem getBand_setBand (v : Value_Limits) (b' b : BandName) (x : ℚ) :
    getBand (setBand v b' x) b = if b' = b then some x else getBand v b := by
  cases b' <;> cases b <;> simp [setBand, getBand]

theorem getBand_applyBands (as : List (BandName × ℚ)) (v : Value_Limits)
    (b : BandName) :
    getBand (applyBands v as) b =
      match (as.filter (fun p => p.1 = b)).getLast? with
      | some p => some p.2
      | none => getBand v b := by
  induction as generalizing v with
  | nil => rfl
  | cons hd rest ih =>
    obtain ⟨b', x⟩ := hd
    rw [show applyBands v ((b', x) :: rest) = applyBands (setBand v b' x) rest from rfl,
      ih]
    by_cases hb : b' = b
    · subst hb
      rw [show ((b', x) :: rest).filter (fun p => p.1 = b') =
        (b', x) :: rest.filter (fun p => p.1 = b') from by simp]
      cases hr : rest.filter (fun p => p.1 = b') with
      | nil => simp [getBand_setBand]
      | cons y t =>
        rw [List.getLast?_cons_cons]
        cases hg : (y :: t).getLast? with
        | some p => rfl
        | none => simp at hg
    · rw [show ((b', x) :: rest).filter (fun p => p.1 = b) =
        rest.filter (fun p => p.1 = b) from by simp [hb]]
      cases hr : rest.filter (fun p => p.1 = b) with
      | nil => simp [getBand_setBand, hb]
      | cons y t => rfl

theorem getBand_ext (v w : Value_Limits)
    (h : ∀ b, getBand v b = getBand w b) : v = w := by
  obtain ⟨a1, a2, a3, a4, a5, a6⟩ := v
  obtain ⟨c1, c2, c3, c4, c5, c6⟩ := w
  have h1 := h .criticalMin
  have h2 := h .warningMin
  have h3 := h .cautionMin
  have h4 := h .cautionMax
  have h5 := h .warningMax
  have h6 := h .criticalMax
  simp only [getBand] at h1 h2 h3 h4 h5 h6
  simp [h1, h2, h3, h4, h5, h6]

theorem threshSteps_eq_map (vid : String) (ts : List Threshold) :
    threshSteps vid ts = (bandEntries ts).map (fun p => (vid, p)) := by
  induction ts with
  | nil => rfl
  | cons t rest ih =>
    cases ht : t.value with
    | none => simp [threshSteps, bandEntries, List.filterMap_cons, ht] at ih ⊢
              exact ih
    | some tv =>
      simp only [threshSteps, bandEntries, List.filterMap_cons, ht] at ih ⊢
      simp [ih]

theorem stepsFor_map_const (id vid : String) (l : List (BandName × ℚ)) :
    stepsFor id (l.map (fun p => (vid, p))) = if vid = id then l else [] := by
  induction l with
  | nil => simp [stepsFor]
  | cons p rest ih =>
    by_cases h : vid = id
    · simp only [stepsFor, List.map_cons, List.filter_cons] at ih ⊢
      simp [h] at ih ⊢
      exact ih
    · simp only [stepsFor, List.map_cons, List.filter_cons] at ih ⊢
      simp [h] at ih ⊢
      exact ih

theorem stepsFor_append (id : String) (a b : List (String × BandName × ℚ)) :
    stepsFor id (a ++ b) = stepsFor id a ++ stepsFor id b := by
  simp [stepsFor]

theorem flatMap_flatMap {α β γ : Type} (l : List α) (f : α → List β) (g : β → List γ) :
    (l.flatMap f).flatMap g = l.flatMap (fun a => (f a).flatMap g) := by
  induction l with
  | nil => rfl
  | cons a rest ih => simp [List.flatMap_cons, List.flatMap_append, ih]

theorem stepsFor_limitblock (id vid : String) (ll : List Limit) :
    stepsFor id (ll.flatMap (fun lim => threshSteps vid lim.thresholds)) =
      if vid = id then ll.flatMap (fun lim => bandEntries lim.thresholds) else [] := by
  induction ll with
  | nil => by_cases h : vid = id <;> simp [stepsFor, h]
  | cons lim rest ih =>
    rw [List.flatMap_cons, stepsFor_append, ih, threshSteps_eq_map, stepsFor_map_const]
    by_cases h : vid = id <;> simp [h]

theorem stepsFor_stepsOf (doc : HealthMonitor) (id : String) :
    stepsFor id (stepsOf doc) = assignmentsOf doc id := by
  unfold stepsOf assignmentsOf limitRecordsOf
  rw [flatMap_flatMap]
  induction doc.values.value_data with
  | nil => rfl
  | cons d rest ih =>
    simp only [List.flatMap_cons, stepsFor_append, ih]
    congr 1
    cases hl : d.limits with
    | none =>
      by_cases hd : d.valueid = id <;> simp [stepsFor, hd]
    | some ls =>
      rw [stepsFor_limitblock]
      by_cases hd : d.valueid = id <;> simp [hd]

/-- C7: the Threshold Resolver's output satisfies, for every input
value-data list and every parameter identifier: a parameter with no limit
records (indeed, with no non-null band assignment at all) is absent from
the result; each threshold entry with a non-null value is assigned to the
matching named band of its parameter; and when several limit records of
the same parameter set the same band, the last record's value wins —
i.e. the entry at `id` is exactly `limitsSpecAt doc id`. -/
theorem C7_threshold_resolver_spec (doc : HealthMonitor) (id : String) :
    dlookup (limits doc) id = limitsSpecAt doc id := by
  rw [limits_eq_applySteps, dlookup_applySteps, dlookup_nil, stepsFor_stepsOf]
  unfold limitsSpecAt
  cases ha : assignmentsOf doc id with
  | nil => simp [combine]
  | cons a t =>
    simp only [combine, Option.getD, if_neg (by simp : ¬a :: t = [])]
    congr 1
    refine getBand_ext _ _ (fun b => ?_)
    rw [getBand_applyBands]
    have hrhs : getBand
        ⟨lastAssigned doc id .criticalMin, lastAssigned doc id .warningMin,
         lastAssigned doc id .cautionMin, lastAssigned doc id .cautionMax,
         lastAssigned doc id .warningMax, lastAssigned doc id .criticalMax⟩ b =
        lastAssigned doc id b := by
      cases b <;> rfl
    rw [hrhs]
    simp only [lastAssigned, ha]
    cases hg : ((a :: t).filter (fun p => p.1 = b)).getLast? with
    | some p => rfl
    | none => cases b <;> rfl

/-! ### Registry membership lemmas -/

theorem mem_Enumerations_keys (cl : List (String × ParameterNames)) (id : String) :
    id ∈ Enumerations_keys cl ↔
      ∃ pn, (id, pn) ∈ cl ∧ pn.enumeration.isSome := by
  constructor
  · intro h
    obtain ⟨⟨k, pn⟩, hf, hk⟩ := List.mem_map.mp h
    obtain ⟨hmem, hs⟩ := List.mem_filter.mp hf
    exact ⟨pn, by rwa [show k = id from hk] at hmem, hs⟩
  · rintro ⟨pn, hmem, hs⟩
    exact List.mem_map.mpr ⟨(id, pn), List.mem_filter.mpr ⟨hmem, hs⟩, rfl⟩

theorem mem_Gauges_keys (cl : List (String × ParameterNames)) (id : String) :
    id ∈ Gauges_keys cl ↔
      ∃ pn, (id, pn) ∈ cl ∧ pn.enumeration = none := by
  constructor
  · intro h
    obtain ⟨⟨k, pn⟩, hf, hk⟩ := List.mem_map.mp h
    obtain ⟨hmem, hs⟩ := List.mem_filter.mp hf
    exact ⟨pn, by rwa [show k = id from hk] at hmem,
      Option.isNone_iff_eq_none.mp hs⟩
  · rintro ⟨pn, hmem, hs⟩
    exact List.mem_map.mpr
      ⟨(id, pn), List.mem_filter.mpr ⟨hmem, by simp [hs]⟩, rfl⟩

theorem mem_of_dlookup_eq_some {α β : Type} [DecidableEq α]
    {l : List (α × β)} {k : α} {v : β}
    (h : dlookup l k = some v) : (k, v) ∈ l := by
  unfold dlookup at h
  cases hf : l.find? (fun p => p.1 = k) with
  | none => rw [hf] at h; cases h
  | some q =>
    rw [hf] at h
    have hq := List.mem_of_find?_eq_some hf
    have hk : q.1 = k := by
      have := List.find?_some hf
      simpa using this
    injection h with hv
    rw [← hv, ← hk]
    simpa using hq

theorem Enumerations_keys_sub_dkeys (cl : List (String × ParameterNames)) :
    ∀ id ∈ Enumerations_keys cl, id ∈ dkeys cl := by
  intro id h
  obtain ⟨pn, hmem, _⟩ := (mem_Enumerations_keys cl id).mp h
  exact List.mem_map.mpr ⟨(id, pn), hmem, rfl⟩

theorem Gauges_keys_sub_dkeys (cl : List (String × ParameterNames)) :
    ∀ id ∈ Gauges_keys cl, id ∈ dkeys cl := by
  intro id h
  obtain ⟨pn, hmem, _⟩ := (mem_Gauges_keys cl id).mp h
  exact List.mem_map.mpr ⟨(id, pn), hmem, rfl⟩

/-- With unique keys (a Python dict), no identifier is both enumerated and
a gauge. -/
theorem enum_gauge_disjoint (cl : List (String × ParameterNames))
    (hnd : (dkeys cl).Nodup) (id : String)
    (hg : id ∈ Gauges_keys cl) : id ∉ Enumerations_keys cl := by
  intro he
  obtain ⟨pn1, hm1, hs1⟩ := (mem_Enumerations_keys cl id).mp he
  obtain ⟨pn2, hm2, hs2⟩ := (mem_Gauges_keys cl id).mp hg
  have e1 := dlookup_of_mem_nodup hm1 hnd
  have e2 := dlookup_of_mem_nodup hm2 hnd
  rw [e1] at e2
  injection e2 with e3
  rw [e3, hs2] at hs1
  cases hs1

/-- C8: when a push names a gauge parameter identifier and the value list
is non-empty, the gauge for that identifier is set, labeled with the
instrument name, to the floating-point coercion of the *last* value of the
list; the conclusion depends only on that last value, so earlier values in
the list cannot affect the resulting gauge value. -/
theorem C8_gauge_push_last_value (enumList : List (String × List (Int × String)))
    (cl : List (String × ParameterNames)) (payload : HealthMonitorData)
    (v : PValue) (x : ℚ)
    (hnd : (dkeys cl).Nodup)
    (hg : payload.type ∈ Gauges_keys cl)
    (hlast : payload.value.getLast? = some v)
    (hx : pyFloat v = some x) :
    set_value enumList cl payload =
      (.ok, [.gaugeSet payload.type payload.instrument x]) := by
  have hne : payload.type ∉ Enumerations_keys cl := enum_gauge_disjoint cl hnd _ hg
  simp only [set_value, if_neg hne, if_pos hg, hlast, hx]

/-- The document of the spec's gauge scenario: component `FEG` with
parameter `Temperature` (id `P1`, no enumeration). -/
def c8doc : HealthMonitor :=
  ⟨⟨[]⟩,
   ⟨⟨"Krios4", "", "", "",
     [.mk "FEG" "" "" none (some [mkParameter "P1" "Temperature" none])]⟩⟩,
   ⟨"2024-08-13T13:53:21.123456Z", "2024-08-13T14:53:21.123456Z", "Krios4", []⟩⟩

/-- Witness for C8: with the registry resolved from `c8doc`, pushing
`{type: "P1", value: [22.5, 23.1], instrument: "Krios4"}` sets the gauge
to `23.1` labeled `Krios4`. -/
theorem C8_gauge_push_last_value_witness :
    set_value [] (component_enums c8doc)
      ⟨"P1", "Krios4", [.pStr "22.5", .pStr "23.1"]⟩ =
      (.ok, [.gaugeSet "P1" "Krios4" (231 / 10 : ℚ)]) :=
  C8_gauge_push_last_value [] (component_enums c8doc)
    ⟨"P1", "Krios4", [.pStr "22.5", .pStr "23.1"]⟩ (.pStr "23.1") (231 / 10 : ℚ)
    (by decide) (by decide) (by decide)
    (by
      have h1 : pyFloat (.pStr "23.1") =
          some ((natFromDigits [2, 3] : ℚ) + (natFromDigits [1] : ℚ) / (10 ^ 1 : ℚ)) := rfl
      rw [h1]
      norm_num [natFromDigits])

/-! ### Router classification -/

inductive MetricKind where
  | enumerated
  | gauge
  | counter
  deriving DecidableEq, Repr

/-- The classification the registry build and the `/set` routing agree on,
in the routing's membership-test order. -/
def classify (cl : List (String × ParameterNames)) (id : String) : Option MetricKind :=
  if id ∈ Enumerations_keys cl then some .enumerated
  else if id ∈ Gauges_keys cl then some .gauge
  else if id ∈ increment_map_keys then some .counter
  else none

/-- The sink kind a state change belongs to. -/
def effectKind : Effect → MetricKind
  | .enumState _ _ _ => .enumerated
  | .gaugeSet _ _ _ => .gauge
  | .counterInc _ _ => .counter

theorem setEnumLoop_effects (enumList : List (String × List (Int × String)))
    (cl : List (String × ParameterNames)) (h i : String) (values : List PValue)
    (effs : List Effect) :
    ∀ e ∈ (setEnumLoop enumList cl h i values effs).2,
      e ∈ effs ∨ effectKind e = .enumerated := by
  induction values generalizing effs with
  | nil => exact fun e he => .inl he
  | cons v rest ih =>
    intro e he
    simp only [setEnumLoop] at he
    split at he
    · exact .inl he
    · split at he
      · exact .inl he
      · split at he
        · exact .inl he
        · split at he
          · exact .inl he
          · split at he
            · exact .inl he
            · rcases ih _ e he with h1 | h2
              · rcases List.mem_append.mp h1 with h3 | h4
                · exact .inl h3
                · rw [List.mem_singleton.mp h4]
                  exact .inr rfl
              · exact .inr h2

/-- C9: classification is exhaustive and disjoint. For every identifier in
the resolved identity map (= `ComponentList`, with unique keys and, as the
manual declaration intends, no collision with the counter names): it is
classified enumerated iff its resolved identity carries an enumeration
reference and gauge iff it does not (exactly one of the two), and it is not
a counter; every manually declared counter name is classified counter; and
every state change `set_value` applies lands on a sink of exactly the kind
`classify` assigns to the pushed identifier. -/
theorem C9_classification_partition (cl : List (String × ParameterNames))
    (hnd : (dkeys cl).Nodup)
    (hdisj : "num_loads" ∉ dkeys cl ∧ "autofill_times" ∉ dkeys cl) :
    (∀ id ∈ dkeys cl,
      (classify cl id = some .enumerated ↔
        ∃ pn, dlookup cl id = some pn ∧ pn.enumeration.isSome)
      ∧ (classify cl id = some .gauge ↔
        ∃ pn, dlookup cl id = some pn ∧ pn.enumeration = none)
      ∧ id ∉ increment_map_keys)
    ∧ (∀ id ∈ increment_map_keys, classify cl id = some .counter)
    ∧ (∀ enumList payload, ∀ e ∈ (set_value enumList cl payload).2,
        some (effectKind e) = classify cl payload.type) := by
  have hEn : ∀ id, id ∈ Enumerations_keys cl ↔
      ∃ pn, dlookup cl id = some pn ∧ pn.enumeration.isSome := by
    intro id
    rw [mem_Enumerations_keys]
    constructor
    · rintro ⟨pn, hm, hs⟩
      exact ⟨pn, dlookup_of_mem_nodup hm hnd, hs⟩
    · rintro ⟨pn, hl, hs⟩
      exact ⟨pn, mem_of_dlookup_eq_some hl, hs⟩
  have hGa : ∀ id, id ∈ Gauges_keys cl ↔
      ∃ pn, dlookup cl id = some pn ∧ pn.enumeration = none := by
    intro id
    rw [mem_Gauges_keys]
    constructor
    · rintro ⟨pn, hm, hs⟩
      exact ⟨pn, dlookup_of_mem_nodup hm hnd, hs⟩
    · rintro ⟨pn, hl, hs⟩
      exact ⟨pn, mem_of_dlookup_eq_some hl, hs⟩
  have hinc : ∀ id, id ∈ dkeys cl → id ∉ increment_map_keys := by
    intro id hid hmem
    rcases List.mem_cons.mp hmem with h1 | h2
    · exact hdisj.1 (h1 ▸ hid)
    · exact hdisj.2 (List.mem_singleton.mp h2 ▸ hid)
  refine ⟨?_, ?_, ?_⟩
  · intro id hid
    refine ⟨?_, ?_, hinc id hid⟩
    · constructor
      · intro hcl
        by_cases hE : id ∈ Enumerations_keys cl
        · exact (hEn id).mp hE
        · exfalso
          unfold classify at hcl
          rw [if_neg hE] at hcl
          by_cases hG : id ∈ Gauges_keys cl
          · rw [if_pos hG] at hcl; cases hcl
          · rw [if_neg hG] at hcl
            by_cases hI : id ∈ increment_map_keys
            · rw [if_pos hI] at hcl; cases hcl
            · rw [if_neg hI] at hcl; cases hcl
      · intro hex
        have hE : id ∈ Enumerations_keys cl := (hEn id).mpr hex
        unfold classify
        rw [if_pos hE]
    · constructor
      · intro hcl
        by_cases hG : id ∈ Gauges_keys cl
        · exact (hGa id).mp hG
        · exfalso
          unfold classify at hcl
          by_cases hE : id ∈ Enumerations_keys cl
          · rw [if_pos hE] at hcl; cases hcl
          · rw [if_neg hE, if_neg hG] at hcl
            by_cases hI : id ∈ increment_map_keys
            · rw [if_pos hI] at hcl; cases hcl
            · rw [if_neg hI] at hcl; cases hcl
      · intro hex
        have hG : id ∈ Gauges_keys cl := (hGa id).mpr hex
        have hE : id ∉ Enumerations_keys cl := enum_gauge_disjoint cl hnd id hG
        unfold classify
        rw [if_neg hE, if_pos hG]
  · intro id hid
    have hE : id ∉ Enumerations_keys cl :=
      fun h => hinc id (Enumerations_keys_sub_dkeys cl id h) hid
    have hG : id ∉ Gauges_keys cl :=
      fun h => hinc id (Gauges_keys_sub_dkeys cl id h) hid
    unfold classify
    rw [if_neg hE, if_neg hG, if_pos hid]
  · intro enumList payload e he
    unfold set_value at he
    by_cases hE : payload.type ∈ Enumerations_keys cl
    · rw [if_pos hE] at he
      rcases setEnumLoop_effects enumList cl _ _ _ [] e he with h1 | h2
      · cases h1
      · rw [h2]
        unfold classify
        rw [if_pos hE]
    · rw [if_neg hE] at he
      by_cases hG : payload.type ∈ Gauges_keys cl
      · rw [if_pos hG] at he
        have : effectKind e = .gauge := by
          rcases hl : payload.value.getLast? with _ | v
          · simp only [hl] at he; simp at he
          · simp only [hl] at he
            rcases hf : pyFloat v with _ | x
            · simp only [hf] at he; simp at he
            · simp only [hf] at he
              rw [List.mem_singleton.mp he]
              rfl
        rw [this]
        unfold classify
        rw [if_neg hE, if_pos hG]
      · rw [if_neg hG] at he
        by_cases hI : payload.type ∈ increment_map_keys
        · rw [if_pos hI] at he
          rw [List.mem_singleton.mp he]
          unfold classify
          rw [if_neg hE, if_neg hG, if_pos hI]
          rfl
        · rw [if_neg hI] at he
          cases he

/-- The registry list used to witness C9: a gauge parameter, an enumerated
parameter, and the two manual counters on the side. -/
def cl9 : List (String × ParameterNames) :=
  [("P1", ⟨"FEG_Temperature", none⟩), ("P2", ⟨"Column_Mode", some "Mode"⟩)]

/-- Witness for C9 on `cl9`. -/
theorem C9_classification_partition_witness :
    (∀ id ∈ dkeys cl9,
      (classify cl9 id = some .enumerated ↔
        ∃ pn, dlookup cl9 id = some pn ∧ pn.enumeration.isSome)
      ∧ (classify cl9 id = some .gauge ↔
        ∃ pn, dlookup cl9 id = some pn ∧ pn.enumeration = none)
      ∧ id ∉ increment_map_keys)
    ∧ (∀ id ∈ increment_map_keys, classify cl9 id = some .counter)
    ∧ (∀ enumList payload, ∀ e ∈ (set_value enumList cl9 payload).2,
        some (effectKind e) = classify cl9 payload.type) :=
  C9_classification_partition cl9 (by decide) ⟨by decide, by decide⟩

/-! ### `push_data` -/

theorem collect_ok_inv (doc : HealthMonitor) (n : String)
    (data : List (String × List XValue))
    (h : collect doc = .ok (n, data)) :
    n = doc.values.instrument ∧
    ∃ te, parse_datetime (pyTake doc.values.end_ 26 ++ "Z") = some te ∧
      data = collectDataF (toAbs te - 60000000) doc.values.value_data [] := by
  cases hend : parse_datetime (pyTake doc.values.end_ 26 ++ "Z") with
  | none => simp [collect, hend] at h
  | some te =>
    simp only [collect, hend] at h
    cases hcd : collectData (toAbs te - 60000000) doc.values.value_data [] with
    | error e => simp [hcd] at h
    | ok s =>
      simp only [hcd] at h
      have hp := (Except.ok.injEq _ _).mp h
      have h1 : doc.values.instrument = n := congrArg Prod.fst hp
      have h2 : s = data := congrArg Prod.snd hp
      refine ⟨h1.symm, te, rfl, ?_⟩
      rw [← h2]
      exact collectData_ok_inv _ _ _ _ hcd

/-- C10: `push_data` POSTs a payload for a parameter identifier if and only
if that parameter's collected value list within the window is non-empty;
parameters present in the collector's output with an empty list produce no
POST. -/
theorem C10_push_iff_nonempty (doc : HealthMonitor) (n : String)
    (data : List (String × List XValue))
    (h : collect doc = .ok (n, data)) :
    ∃ pls, push_data doc = .ok pls ∧
      ∀ p : String,
        (∃ pl ∈ pls, pl.type = p) ↔
        (∃ vs, dlookup data p = some vs ∧ vs ≠ []) := by
  refine ⟨data.filterMap
    (fun pv => if pv.2 = [] then none else some ⟨pv.1, pv.2.map pyStr, n⟩), ?_, ?_⟩
  · unfold push_data
    rw [h]
  · have hnd : (dkeys data).Nodup := by
      obtain ⟨-, te, -, hdata⟩ := collect_ok_inv doc n data h
      rw [hdata]
      exact collectDataF_keys_nodup _ _ _ (by simp [dkeys])
    intro p
    constructor
    · rintro ⟨pl, hpl, hty⟩
      obtain ⟨⟨p', vs⟩, hmem, hcond⟩ := List.mem_filterMap.mp hpl
      by_cases hvs : vs = []
      · rw [if_pos hvs] at hcond; cases hcond
      · rw [if_neg hvs] at hcond
        injection hcond with hpl'
        have hty' : p' = p := by rw [← hty, ← hpl']
        rw [← hty']
        exact ⟨vs, dlookup_of_mem_nodup hmem hnd, hvs⟩
    · rintro ⟨vs, hlk, hvs⟩
      exact ⟨⟨p, vs.map pyStr, n⟩,
        List.mem_filterMap.mpr
          ⟨(p, vs), mem_of_dlookup_eq_some hlk, by rw [if_neg hvs]⟩, rfl⟩

/-- The document used to witness C10: within the 1-minute window, `P1` has
one sample and `P2` none (its only sample is 61 s before the end time), so
exactly one POST is emitted, for `P1`. -/
def c10doc : HealthMonitor :=
  ⟨⟨[]⟩, ⟨⟨"Krios4", "", "", "", []⟩⟩,
   ⟨"2024-08-13T13:53:21.123456Z", "2024-08-13T14:53:21.123456Z", "Krios4",
    [⟨"2024-08-13T13:53:21.123456Z", "2024-08-13T14:53:21.123456Z", "P1", "Temperature",
      [⟨[sampleAt "2024-08-13T14:53:21.123456Z" (.xStr "22.5")]⟩], none⟩,
     ⟨"2024-08-13T13:53:21.123456Z", "2024-08-13T14:53:21.123456Z", "P2", "Mode",
      [⟨[sampleAt "2024-08-13T14:52:20.123456Z" (.xStr "1")]⟩], none⟩]⟩⟩

/-- Witness for C10 on `c10doc`: `P2` is a key of the collected mapping with
an empty list and gets no POST; `P1` gets exactly one. -/
theorem C10_push_iff_nonempty_witness :
    (∃ pls, push_data c10doc = .ok pls ∧
      ∀ p : String,
        (∃ pl ∈ pls, pl.type = p) ↔
        (∃ vs, dlookup [("P1", [XValue.xStr "22.5"]), ("P2", [])] p = some vs ∧
          vs ≠ []))
    ∧ push_data c10doc = .ok [⟨"P1", ["22.5"], "Krios4"⟩] :=
  ⟨C10_push_iff_nonempty c10doc "Krios4"
    [("P1", [XValue.xStr "22.5"]), ("P2", [])] (by decide),
   by decide⟩

end CryoemMonitor
